import Mathlib

/-!
# app_test_harness: trial runner and control surface

A shallow embedding of `src/app_test_harness.c`.

* `app_definition`, `test_apps`: the registry table and its counters.
* `kthread`, `thread_step`: `app_thread_fn` as a small-step machine, one
  step per statement group, so that commands and other threads can be
  interleaved between any two statements.
* `harness_proc_write`: the command handler (`start <n>`, `stop`, `reset`).
* `app_test_harness_exit`: module unload.

Kernel services (`kthread_run`, `kthread_stop`, `kthread_should_stop`,
`msleep`, `sscanf`, `strncmp`, `copy_from_user`, `printk`) and the recovery
evaluator (`start_test`, `add_event`, `end_test`) are not part of the file;
they are represented by their observable effect on the state below.
-/

namespace AppTestHarness

/-! ## Machine integers -/

/-- Two's-complement reduction of an integer to the range of a C `int`. -/
def int_wrap (x : Int) : Int := (x + 2147483648) % 4294967296 - 2147483648

/-- The C statement `x++` on an `int` (the kernel is built with wrapping
signed arithmetic). -/
def int_incr (x : Int) : Int := int_wrap (x + 1)

/-! ## Registry -/

/-- The C `struct app_definition`. -/
structure app_definition where
  name : String
  driver_class : String
  num_trials : Int
  automatic_recovery : Int
  manual_recovery : Int
  failed_recovery : Int
  is_running : Bool
  deriving DecidableEq, Repr, Inhabited

def DRIVER_CLASS_SOUND : String := "snd"
def DRIVER_CLASS_NETWORK : String := "e1000"
def DRIVER_CLASS_IDE : String := "ide"

/-- The static initialiser of `test_apps[]`. -/
def test_apps : List app_definition :=
  [ { name := "mp3_player", driver_class := DRIVER_CLASS_SOUND, num_trials := 0,
      automatic_recovery := 0, manual_recovery := 0, failed_recovery := 0, is_running := false },
    { name := "audio_recorder", driver_class := DRIVER_CLASS_SOUND, num_trials := 0,
      automatic_recovery := 0, manual_recovery := 0, failed_recovery := 0, is_running := false },
    { name := "network_file_transfer", driver_class := DRIVER_CLASS_NETWORK, num_trials := 0,
      automatic_recovery := 0, manual_recovery := 0, failed_recovery := 0, is_running := false },
    { name := "network_analyzer", driver_class := DRIVER_CLASS_NETWORK, num_trials := 0,
      automatic_recovery := 0, manual_recovery := 0, failed_recovery := 0, is_running := false },
    { name := "compiler", driver_class := DRIVER_CLASS_IDE, num_trials := 0,
      automatic_recovery := 0, manual_recovery := 0, failed_recovery := 0, is_running := false },
    { name := "database", driver_class := DRIVER_CLASS_IDE, num_trials := 0,
      automatic_recovery := 0, manual_recovery := 0, failed_recovery := 0, is_running := false } ]

/-- The macro `NUM_TEST_APPS`: `sizeof(test_apps) / sizeof(test_apps[0])`. -/
def NUM_TEST_APPS : Nat := test_apps.length

/-- Read access `test_apps[idx]`. -/
def app_at (apps : List app_definition) (idx : Nat) : app_definition :=
  apps.getD idx default

/-- Write access `test_apps[idx].field = ...`, as an update of entry `idx`. -/
def app_update (f : app_definition → app_definition) :
    Nat → List app_definition → List app_definition
  | _, [] => []
  | 0, a :: rest => f a :: rest
  | n + 1, a :: rest => a :: app_update f n rest

/-! ## Recovery evaluator calls -/

/-- The phase constants passed to `add_event`. -/
inductive phase where
  | PHASE_FAILURE_DETECTED
  | PHASE_DRIVER_RESTARTING
  | PHASE_RECOVERY_COMPLETE
  | PHASE_RECOVERY_FAILED
  deriving DecidableEq, Repr

/-- One call into the recovery evaluator, with its arguments. -/
inductive evaluator_call where
  | start_test (test_name : String) (driver_class : String)
  | add_event (ph : phase) (message : String)
  | end_test (success : Bool)
  deriving DecidableEq, Repr

/-! ## Memory shared by the command handler and the campaign threads -/

/-- The globals a campaign thread reads and writes: the registry, the static
`current_app` slot whose address is handed to the thread, and the evaluator
(as the sequence of calls received so far, oldest first). -/
structure harness_mem where
  apps : List app_definition
  current_app : Nat
  evaluator : List evaluator_call
  deriving DecidableEq, Repr

/-! ## The campaign thread -/

/-- The two conditions `if (1) /* REPLACE with actual check */` of
`app_thread_fn`, as functions of the trial number: `auto` is the check after
the recovery wait, `manual` the check after the manual attempt. -/
structure checks where
  auto : Nat → Bool
  manual : Nat → Bool

/-- The conditions as the source has them: the literal `1` in both places. -/
def source_checks : checks := { auto := fun _ => true, manual := fun _ => true }

/-- Program points of `app_thread_fn`. -/
inductive pc where
  | entry
  | set_running
  | loop_head
  | start_trial
  | work_cond
  | work_sleep
  | stop_check
  | inject
  | recovery_wait
  | verify
  | auto_incr
  | auto_event
  | auto_end
  | manual_event
  | manual_wait
  | manual_verify
  | manual_incr
  | manual_ok_event
  | manual_ok_end
  | failed_incr
  | failed_event
  | failed_end
  | count_trial
  | next_trial
  | cooldown
  | clear_running
  | exited
  deriving DecidableEq, Repr

/-- A kernel thread running `app_thread_fn`: the stop flag that
`kthread_should_stop()` reads, the program point, and the locals `app_idx`,
`i`, `trial` (`i` and `trial` only ever hold values in `0..10` and `0..400`). -/
structure kthread where
  should_stop : Bool
  at_pc : pc
  app_idx : Nat
  i : Nat
  trial : Nat
  deriving DecidableEq, Repr

/-- A thread as `kthread_run` leaves it: created, nothing executed yet. -/
def kthread_new : kthread :=
  { should_stop := false, at_pc := pc.entry, app_idx := 0, i := 0, trial := 0 }

/-- The call `snprintf(test_name, sizeof(test_name), "%s_trial_%d", name, trial)`
with `char test_name[128]`: at most 127 characters are kept. `trial` is never
negative, so `%d` prints its decimal digits. -/
def test_name (name : String) (trial : Nat) : String :=
  String.mk ((name.toList ++ "_trial_".toList ++ (Nat.toDigits 10 trial)).take 127)

/-- One step of `app_thread_fn` from program point `t.at_pc`. -/
def thread_step (c : checks) (m : harness_mem) (t : kthread) : harness_mem × kthread :=
  match t.at_pc with
  | pc.entry =>
      -- int app_idx = *(int *)data; int i, trial = 0;
      (m, { t with app_idx := m.current_app, trial := 0, at_pc := pc.set_running })
  | pc.set_running =>
      -- test_apps[app_idx].is_running = true;
      ({ m with apps := app_update (fun a => { a with is_running := true }) t.app_idx m.apps },
       { t with at_pc := pc.loop_head })
  | pc.loop_head =>
      -- while (!kthread_should_stop() && trial < 400)
      if !t.should_stop && decide (t.trial < 400) then (m, { t with at_pc := pc.start_trial })
      else (m, { t with at_pc := pc.clear_running })
  | pc.start_trial =>
      -- snprintf(...); start_test(test_name, driver_class); i = 0
      ({ m with evaluator := m.evaluator ++
          [evaluator_call.start_test (test_name (app_at m.apps t.app_idx).name t.trial)
            (app_at m.apps t.app_idx).driver_class] },
       { t with i := 0, at_pc := pc.work_cond })
  | pc.work_cond =>
      -- i < 10 && !kthread_should_stop()
      if decide (t.i < 10) && !t.should_stop then (m, { t with at_pc := pc.work_sleep })
      else (m, { t with at_pc := pc.stop_check })
  | pc.work_sleep =>
      -- msleep(100); i++
      (m, { t with i := t.i + 1, at_pc := pc.work_cond })
  | pc.stop_check =>
      -- if (kthread_should_stop()) break;
      if t.should_stop then (m, { t with at_pc := pc.clear_running })
      else (m, { t with at_pc := pc.inject })
  | pc.inject =>
      -- add_event(NULL, PHASE_FAILURE_DETECTED, "Injected fault in %s", driver_class);
      ({ m with evaluator := m.evaluator ++
          [evaluator_call.add_event phase.PHASE_FAILURE_DETECTED
            ("Injected fault in " ++ (app_at m.apps t.app_idx).driver_class)] },
       { t with at_pc := pc.recovery_wait })
  | pc.recovery_wait =>
      -- msleep(2000);
      (m, { t with at_pc := pc.verify })
  | pc.verify =>
      -- if (1) /* REPLACE with actual check */
      if c.auto t.trial then (m, { t with at_pc := pc.auto_incr })
      else (m, { t with at_pc := pc.manual_event })
  | pc.auto_incr =>
      -- test_apps[app_idx].automatic_recovery++;
      ({ m with apps :=
          (app_update (fun a => { a with automatic_recovery := int_incr a.automatic_recovery }) t.app_idx m.apps) },
       { t with at_pc := pc.auto_event })
  | pc.auto_event =>
      ({ m with evaluator := m.evaluator ++
          [evaluator_call.add_event phase.PHASE_RECOVERY_COMPLETE "Automatic recovery successful"] },
       { t with at_pc := pc.auto_end })
  | pc.auto_end =>
      -- end_test(true);
      ({ m with evaluator := m.evaluator ++ [evaluator_call.end_test true] },
       { t with at_pc := pc.count_trial })
  | pc.manual_event =>
      ({ m with evaluator := m.evaluator ++
          [evaluator_call.add_event phase.PHASE_DRIVER_RESTARTING "Attempting manual recovery"] },
       { t with at_pc := pc.manual_wait })
  | pc.manual_wait =>
      -- msleep(1000);
      (m, { t with at_pc := pc.manual_verify })
  | pc.manual_verify =>
      -- if (1) /* REPLACE with actual check */
      if c.manual t.trial then (m, { t with at_pc := pc.manual_incr })
      else (m, { t with at_pc := pc.failed_incr })
  | pc.manual_incr =>
      -- test_apps[app_idx].manual_recovery++;
      ({ m with apps :=
          (app_update (fun a => { a with manual_recovery := int_incr a.manual_recovery }) t.app_idx m.apps) },
       { t with at_pc := pc.manual_ok_event })
  | pc.manual_ok_event =>
      ({ m with evaluator := m.evaluator ++
          [evaluator_call.add_event phase.PHASE_RECOVERY_COMPLETE "Manual recovery successful"] },
       { t with at_pc := pc.manual_ok_end })
  | pc.manual_ok_end =>
      -- end_test(true);
      ({ m with evaluator := m.evaluator ++ [evaluator_call.end_test true] },
       { t with at_pc := pc.count_trial })
  | pc.failed_incr =>
      -- test_apps[app_idx].failed_recovery++;
      ({ m with apps :=
          (app_update (fun a => { a with failed_recovery := int_incr a.failed_recovery }) t.app_idx m.apps) },
       { t with at_pc := pc.failed_event })
  | pc.failed_event =>
      ({ m with evaluator := m.evaluator ++
          [evaluator_call.add_event phase.PHASE_RECOVERY_FAILED "Recovery failed"] },
       { t with at_pc := pc.failed_end })
  | pc.failed_end =>
      -- end_test(false);
      ({ m with evaluator := m.evaluator ++ [evaluator_call.end_test false] },
       { t with at_pc := pc.count_trial })
  | pc.count_trial =>
      -- test_apps[app_idx].num_trials++;
      ({ m with apps :=
          (app_update (fun a => { a with num_trials := int_incr a.num_trials }) t.app_idx m.apps) },
       { t with at_pc := pc.next_trial })
  | pc.next_trial =>
      -- trial++;
      (m, { t with trial := t.trial + 1, at_pc := pc.cooldown })
  | pc.cooldown =>
      -- msleep(1000);
      (m, { t with at_pc := pc.loop_head })
  | pc.clear_running =>
      -- test_apps[app_idx].is_running = false; return 0;
      ({ m with apps := app_update (fun a => { a with is_running := false }) t.app_idx m.apps },
       { t with at_pc := pc.exited })
  | pc.exited => (m, t)

/-- A campaign observed on its own: the shared memory and the one thread. -/
structure campaign where
  mem : harness_mem
  th : kthread
  deriving DecidableEq, Repr

/-- One scheduling slot of a campaign thread: when `stop_now` holds, a
`kthread_stop` request sets the stop flag first (it is never cleared); then
the thread executes one step. -/
def campaign_step (c : checks) (stop_now : Bool) (s : campaign) : campaign :=
  let r := thread_step c s.mem { s.th with should_stop := s.th.should_stop || stop_now }
  { mem := r.1, th := r.2 }

/-- The campaign after `n` slots under the cancellation schedule `sched`:
`sched k` tells whether a stop request arrives just before slot `k`. -/
def campaign_run (c : checks) (sched : Nat → Bool) : Nat → campaign → campaign
  | 0, s => s
  | n + 1, s => campaign_step c (sched n) (campaign_run c sched n s)

/-- The state in which `kthread_run` hands a fresh thread the address of
`current_app`, holding the validated index `idx`. -/
def campaign_start (apps : List app_definition) (idx : Nat) (ev : List evaluator_call) : campaign :=
  { mem := { apps := apps, current_app := idx, evaluator := ev }, th := kthread_new }

/-! ## The control surface -/

/-- A value of the C pointer `static struct task_struct *app_thread`: `NULL`,
an `ERR_PTR(errno)` as `kthread_run` returns it on failure, or the
`task_struct` of the thread with the given identifier. -/
inductive task_ptr where
  | null
  | err (errno : Int)
  | task (tid : Nat)
  deriving DecidableEq, Repr

/-- What `kthread_run` does when called: it creates and wakes a thread, or it
fails with an error pointer carrying `errno` (for example `-ENOMEM = -12`). -/
inductive kthread_run_result where
  | created
  | failed (errno : Int)
  deriving DecidableEq, Repr

/-- The log levels used by the module. -/
inductive log_level where
  | KERN_INFO
  | KERN_WARNING
  | KERN_ERR
  deriving DecidableEq, Repr

/-- The whole module state: the shared memory, the handle `app_thread`, every
thread `kthread_run` has created (thread `k` is entry `k`; a thread that has
returned stays in the list at `pc.exited`), and two traces of kernel calls:
the arguments `kthread_stop` was called with and the `printk` lines. -/
structure harness_state where
  mem : harness_mem
  app_thread : task_ptr
  threads : List kthread
  kthread_stop_calls : List task_ptr
  printk : List (log_level × String)
  deriving DecidableEq, Repr

/-- The state after module load: the static initialisers. -/
def harness_init : harness_state :=
  { mem := { apps := test_apps, current_app := 0, evaluator := [] },
    app_thread := task_ptr.null, threads := [], kthread_stop_calls := [], printk := [] }

/-- Replace entry `tid` of the thread list. -/
def thread_set (t : kthread) : Nat → List kthread → List kthread
  | _, [] => []
  | 0, _ :: rest => t :: rest
  | n + 1, x :: rest => x :: thread_set t n rest

/-- Thread `tid` executes one step of `app_thread_fn` (nothing happens when no
such thread exists). -/
def thread_tick (c : checks) (s : harness_state) (tid : Nat) : harness_state :=
  match s.threads.get? tid with
  | none => s
  | some t =>
      let r := thread_step c s.mem t
      { s with mem := r.1, threads := thread_set r.2 tid s.threads }

/-- An upper bound on the number of steps `app_thread_fn` can take. -/
def CAMPAIGN_STEPS : Nat := 400 * 40 + 8

/-- Run one thread until it has returned, for at most `fuel` steps. -/
def run_to_exit (c : checks) : Nat → harness_mem → kthread → harness_mem × kthread
  | 0, m, t => (m, t)
  | fuel + 1, m, t =>
      if t.at_pc = pc.exited then (m, t)
      else run_to_exit c fuel (thread_step c m t).1 (thread_step c m t).2

/-- The call `kthread_stop(p)`. For a live thread it sets the stop flag and
waits until the thread function has returned. Called with an error pointer
or with the task of a thread that has already returned (the module holds no
reference on it) the kernel dereferences an invalid task structure; the model
only records the call. -/
def kthread_stop (c : checks) (s : harness_state) (p : task_ptr) : harness_state :=
  let s1 := { s with kthread_stop_calls := s.kthread_stop_calls ++ [p] }
  match p with
  | task_ptr.task tid =>
      match s1.threads.get? tid with
      | some t =>
          if t.at_pc = pc.exited then s1
          else
            let r := run_to_exit c CAMPAIGN_STEPS s1.mem { t with should_stop := true }
            { s1 with mem := r.1, threads := thread_set r.2 tid s1.threads }
      | none => s1
  | _ => s1

/-! ### Command text -/

/-- The C library predicate `isspace`. -/
def isspace (ch : Char) : Bool :=
  ch = ' ' || ch = '\t' || ch = '\n' || ch = '\r' || ch.toNat = 11 || ch.toNat = 12

/-- The C library predicate `isdigit`. -/
def isdigit (ch : Char) : Bool := decide (48 ≤ ch.toNat) && decide (ch.toNat ≤ 57)

/-- Skip leading white space. -/
def skip_spaces : List Char → List Char
  | [] => []
  | ch :: rest => if isspace ch then skip_spaces rest else ch :: rest

/-- Match the literal characters of a format against the input; the rest of
the input on success. -/
def match_literal : List Char → List Char → Option (List Char)
  | [], inp => some inp
  | _ :: _, [] => none
  | l :: ls, x :: xs => if l = x then match_literal ls xs else none

/-- Value of the leading run of decimal digits, continuing from `acc`. -/
def parse_digits : Nat → List Char → Nat
  | acc, [] => acc
  | acc, ch :: rest => if isdigit ch then parse_digits (acc * 10 + (ch.toNat - 48)) rest else acc

/-- The test `sscanf(cmd, "start %d", &app_idx) == 1`: `some v` when the
conversion succeeds, `v` being the value stored in the `int app_idx`. The
literal `start` must match, white space is skipped, then an optional `-` and
at least one digit are read; the value is reduced to the range of `int`. -/
def sscanf_start_d (cmd : List Char) : Option Int :=
  match match_literal "start".toList cmd with
  | none => none
  | some rest =>
      match skip_spaces rest with
      | [] => none
      | ch :: more =>
          if ch = '-' then
            match more with
            | [] => none
            | d :: _ => if isdigit d then some (int_wrap (-(parse_digits 0 more : Int))) else none
          else if isdigit ch then some (int_wrap (parse_digits 0 (ch :: more) : Int))
          else none

/-- The test `strncmp(cmd, lit, n) == 0`: the first `n` characters of the two
strings agree (both strings end at their terminating NUL). -/
def strncmp_eq (cmd : List Char) (lit : String) (n : Nat) : Bool :=
  decide (cmd.take n = lit.toList.take n)

/-- The buffer `cmd` as a C string: the first `cmd_size` bytes copied from user
space, ending at the first NUL byte if there is one. -/
def c_string (buffer : List Char) (cmd_size : Nat) : List Char :=
  (buffer.take cmd_size).takeWhile (fun ch => ch ≠ Char.ofNat 0)

/-- The error number `EFAULT`. -/
def EFAULT : Int := 14

/-- The `else if` chain of `harness_proc_write` after the `start` test:
`stop`, `reset`, or nothing; then `return count`. -/
def harness_proc_write_else (c : checks) (s : harness_state) (cmd : List Char) (count : Nat) :
    harness_state × Int :=
  if strncmp_eq cmd "stop" 4 then
    -- if (app_thread) { kthread_stop(app_thread); app_thread = NULL; }
    if s.app_thread ≠ task_ptr.null then
      ({ kthread_stop c s s.app_thread with app_thread := task_ptr.null }, (count : Int))
    else (s, (count : Int))
  else if strncmp_eq cmd "reset" 5 then
    ({ s with mem := { s.mem with apps := s.mem.apps.map (fun a =>
        { a with num_trials := 0, automatic_recovery := 0, manual_recovery := 0,
                 failed_recovery := 0 }) } },
     (count : Int))
  else (s, (count : Int))

/-- The function `harness_proc_write`. `buffer` holds the bytes readable at the
user pointer, `count` is the length passed by the caller and `kr` is what
`kthread_run` does if it is called. Returns the new state and the return
value. -/
def harness_proc_write (c : checks) (s : harness_state) (buffer : List Char) (count : Nat)
    (kr : kthread_run_result) : harness_state × Int :=
  -- size_t cmd_size = min(count, sizeof(cmd) - 1);
  let cmd_size := min count 63
  -- if (copy_from_user(cmd, buffer, cmd_size)) return -EFAULT;
  if buffer.length < cmd_size then (s, -EFAULT)
  else
    -- cmd[cmd_size] = 0;
    let cmd := c_string buffer cmd_size
    match sscanf_start_d cmd with
    | some app_idx =>
        if 0 ≤ app_idx ∧ app_idx < (NUM_TEST_APPS : Int) then
          let idx := app_idx.toNat
          if (app_at s.mem.apps idx).is_running then
            ({ s with printk := s.printk ++
                [(log_level.KERN_WARNING, "App " ++ toString idx ++ " is already running\n")] },
             (count : Int))
          else
            -- current_app = app_idx; app_thread = kthread_run(app_thread_fn, &current_app, ...);
            let m1 := { s.mem with current_app := idx }
            match kr with
            | kthread_run_result.created =>
                ({ s with mem := m1, app_thread := task_ptr.task s.threads.length,
                          threads := s.threads ++ [kthread_new] },
                 (count : Int))
            | kthread_run_result.failed errno =>
                -- if (IS_ERR(app_thread)) { printk(...); return PTR_ERR(app_thread); }
                ({ s with mem := m1, app_thread := task_ptr.err errno,
                          printk := s.printk ++
                            [(log_level.KERN_ERR, "Failed to start app test thread\n")] },
                 errno)
        else harness_proc_write_else c s cmd count
    | none => harness_proc_write_else c s cmd count

/-- The function `app_test_harness_exit`, as far as the campaign thread is
concerned: `if (app_thread) kthread_stop(app_thread);`. -/
def app_test_harness_exit (c : checks) (s : harness_state) : harness_state :=
  if s.app_thread ≠ task_ptr.null then kthread_stop c s s.app_thread else s

/-- What can happen next: a write to the control file, or one step of one of
the threads. -/
inductive event where
  | write (buffer : List Char) (count : Nat) (kr : kthread_run_result)
  | tick (tid : Nat)
  deriving DecidableEq, Repr

/-- The state after one event. -/
def harness_step (c : checks) (s : harness_state) : event → harness_state
  | event.write buffer count kr => (harness_proc_write c s buffer count kr).1
  | event.tick tid => thread_tick c s tid

/-- The state after a sequence of events, oldest first. -/
def harness_run (c : checks) (s : harness_state) (evs : List event) : harness_state :=
  evs.foldl (harness_step c) s

/-! ## Notions used to state the properties -/

/-- The three ways a trial can be classified. -/
inductive outcome where
  | automatic
  | manual
  | failed
  deriving DecidableEq, Repr

/-- The classification of trial `t` that the two checks determine. -/
def classify (c : checks) (t : Nat) : outcome :=
  if c.auto t then outcome.automatic
  else if c.manual t then outcome.manual
  else outcome.failed

/-- Number of trials among `0 .. n-1` classified as `o`. -/
def outcome_count (c : checks) (o : outcome) (n : Nat) : Nat :=
  (List.range n).countP (fun t => decide (classify c t = o))

/-- Program points inside the loop body, where trial number `trial` is in
flight and `trial++` has not been executed yet. -/
def in_trial : pc → Bool
  | pc.entry | pc.set_running | pc.loop_head | pc.cooldown | pc.clear_running | pc.exited => false
  | _ => true

/-- Program points between the increment of an outcome counter and `trial++`. -/
def outcome_recorded : pc → Bool
  | pc.auto_event | pc.auto_end | pc.manual_ok_event | pc.manual_ok_end
  | pc.failed_event | pc.failed_end | pc.count_trial | pc.next_trial => true
  | _ => false

/-- Program points between `num_trials++` and `trial++`. -/
def trial_counted : pc → Bool
  | pc.next_trial => true
  | _ => false

/-- Program points of the loop body after `start_test` has been called for
the trial in flight. -/
def label_logged : pc → Bool
  | pc.start_trial => false
  | p => in_trial p

/-- The labels of the `start_test` calls in an evaluator trace, in order. -/
def start_labels (ev : List evaluator_call) : List String :=
  ev.filterMap (fun e => match e with
    | evaluator_call.start_test nm _ => some nm
    | _ => none)

/-- An upper bound on the number of steps a thread still takes before it has
returned, from its program point and its locals. -/
def steps_left (t : kthread) : Nat :=
  match t.at_pc with
  | pc.exited => 0
  | pc.clear_running => 1
  | pc.loop_head => 2 + (400 - t.trial) * 40
  | pc.cooldown => 3 + (400 - t.trial) * 40
  | pc.next_trial => 4 + (400 - (t.trial + 1)) * 40
  | pc.count_trial => 5 + (400 - (t.trial + 1)) * 40
  | pc.auto_end => 6 + (400 - (t.trial + 1)) * 40
  | pc.manual_ok_end => 6 + (400 - (t.trial + 1)) * 40
  | pc.failed_end => 6 + (400 - (t.trial + 1)) * 40
  | pc.auto_event => 7 + (400 - (t.trial + 1)) * 40
  | pc.manual_ok_event => 7 + (400 - (t.trial + 1)) * 40
  | pc.failed_event => 7 + (400 - (t.trial + 1)) * 40
  | pc.auto_incr => 8 + (400 - (t.trial + 1)) * 40
  | pc.manual_incr => 8 + (400 - (t.trial + 1)) * 40
  | pc.failed_incr => 8 + (400 - (t.trial + 1)) * 40
  | pc.manual_verify => 9 + (400 - (t.trial + 1)) * 40
  | pc.manual_wait => 10 + (400 - (t.trial + 1)) * 40
  | pc.manual_event => 11 + (400 - (t.trial + 1)) * 40
  | pc.verify => 12 + (400 - (t.trial + 1)) * 40
  | pc.recovery_wait => 13 + (400 - (t.trial + 1)) * 40
  | pc.inject => 14 + (400 - (t.trial + 1)) * 40
  | pc.stop_check => 15 + (400 - (t.trial + 1)) * 40
  | pc.work_cond => 16 + 2 * (10 - t.i) + (400 - (t.trial + 1)) * 40
  | pc.work_sleep => 15 + 2 * (10 - t.i) + (400 - (t.trial + 1)) * 40
  | pc.start_trial => 37 + (400 - (t.trial + 1)) * 40
  | pc.set_running => 3 + (400 - t.trial) * 40
  | pc.entry => 4 + 400 * 40

/-- Locals are consistent with the program point: the sleep of the workload
loop is only reached with `i < 10`. -/
def locals_ok (t : kthread) : Prop := t.at_pc = pc.work_sleep → t.i < 10

/-- Control invariant of a campaign on entry `idx`: the thread works on the
entry it was started for, and the trial counter respects the loop bound. -/
def control_inv (idx : Nat) (s : campaign) : Prop :=
  s.mem.current_app = idx ∧ idx < s.mem.apps.length ∧
  (s.th.at_pc ≠ pc.entry → s.th.app_idx = idx) ∧
  (s.th.at_pc = pc.entry → s.th.trial = 0) ∧ s.th.trial ≤ 400 ∧
  (in_trial s.th.at_pc = true → s.th.trial < 400)

/-- Counter invariant of a campaign on entry `idx` whose counters were
`n0, a0, m0, f0` at the start: each counter has been incremented once per
trial recorded so far with the matching classification. -/
def counters_inv (c : checks) (idx : Nat) (n0 a0 m0 f0 : Int) (s : campaign) : Prop :=
  (app_at s.mem.apps idx).num_trials =
    (int_incr^[s.th.trial + (if trial_counted s.th.at_pc then 1 else 0)]) n0 ∧
  (app_at s.mem.apps idx).automatic_recovery =
    (int_incr^[outcome_count c outcome.automatic
      (s.th.trial + (if outcome_recorded s.th.at_pc then 1 else 0))]) a0 ∧
  (app_at s.mem.apps idx).manual_recovery =
    (int_incr^[outcome_count c outcome.manual
      (s.th.trial + (if outcome_recorded s.th.at_pc then 1 else 0))]) m0 ∧
  (app_at s.mem.apps idx).failed_recovery =
    (int_incr^[outcome_count c outcome.failed
      (s.th.trial + (if outcome_recorded s.th.at_pc then 1 else 0))]) f0 ∧
  (s.th.at_pc = pc.auto_incr → c.auto s.th.trial = true) ∧
  (s.th.at_pc = pc.manual_event ∨ s.th.at_pc = pc.manual_wait ∨ s.th.at_pc = pc.manual_verify →
    c.auto s.th.trial = false) ∧
  (s.th.at_pc = pc.manual_incr → c.auto s.th.trial = false ∧ c.manual s.th.trial = true) ∧
  (s.th.at_pc = pc.failed_incr → c.auto s.th.trial = false ∧ c.manual s.th.trial = false)

/-- Label invariant of a campaign that is never asked to stop: the
`start_test` labels issued so far are those of trials `0, 1, ...` of the
entry, in order, one per trial begun. -/
def labels_inv (idx : Nat) (name : String) (ev0 : List evaluator_call) (s : campaign) : Prop :=
  (app_at s.mem.apps idx).name = name ∧
  start_labels s.mem.evaluator = start_labels ev0 ++
    (List.range (s.th.trial + (if label_logged s.th.at_pc then 1 else 0))).map (test_name name)

/-- Exit invariant: once the thread has returned, the running flag of its
entry is clear. -/
def exit_inv (idx : Nat) (s : campaign) : Prop :=
  s.th.at_pc = pc.exited → (app_at s.mem.apps idx).is_running = false

/-- Invariant of a campaign that is never asked to stop: the flag stays clear
and the loop is only left at the trial limit. -/
def unstopped_inv (s : campaign) : Prop :=
  s.th.should_stop = false ∧
  (s.th.at_pc = pc.clear_running ∨ s.th.at_pc = pc.exited → s.th.trial = 400)

/-- The counters of an entry set to zero, as the `reset` loop does. -/
def zeroed (a : app_definition) : app_definition :=
  { a with num_trials := 0, automatic_recovery := 0, manual_recovery := 0, failed_recovery := 0 }

/-- A write of the text `cmd` to the control file, `count` being its length. -/
def write_cmd (cmd : String) (kr : kthread_run_result) : event :=
  event.write cmd.toList cmd.length kr

/-- Checks that answer differently from trial to trial: trials `0, 3, 6, ...`
recover automatically, trials `1, 4, 7, ...` manually, the others fail. -/
def sample_checks : checks :=
  { auto := fun t => decide (t % 3 = 0), manual := fun t => decide (t % 3 = 1) }

/-- The cancellation schedule with no stop request. -/
def never_stop : Nat → Bool := fun _ => false

/-- The cancellation schedule with one stop request, just before slot `j`. -/
def stop_at (j : Nat) : Nat → Bool := fun k => decide (k = j)

/-- The four counters of a registry entry. -/
def counters (a : app_definition) : Int × Int × Int × Int :=
  (a.num_trials, a.automatic_recovery, a.manual_recovery, a.failed_recovery)

/-- The decimal text of an integer, as it is written in a command: a `-` for
a negative value, then the decimal digits of the magnitude. -/
def decimal_text (n : Int) : List Char :=
  if n < 0 then '-' :: Nat.toDigits 10 n.natAbs else Nat.toDigits 10 n.toNat

/-! ## Properties -/

/-! ### Registry access -/

theorem app_update_length (f : app_definition → app_definition) (idx : Nat)
    (apps : List app_definition) : (app_update f idx apps).length = apps.length := by
  induction apps generalizing idx with
  | nil => simp [app_update]
  | cons a rest ih => cases idx <;> simp [app_update, ih]

theorem app_at_update_same (f : app_definition → app_definition) (idx : Nat)
    (apps : List app_definition) (h : idx < apps.length) :
    app_at (app_update f idx apps) idx = f (app_at apps idx) := by
  induction apps generalizing idx with
  | nil => simp at h
  | cons a rest ih =>
      cases idx with
      | zero => simp [app_update, app_at]
      | succ k =>
          have hk : k < rest.length := by simpa using h
          simpa [app_update, app_at] using ih k hk

/-! ### Machine integers and outcome counts -/

theorem int_incr_iterate (k : Nat) (h : k ≤ 2147483647) : (int_incr^[k]) 0 = (k : Int) := by
  induction k with
  | zero => rfl
  | succ n ih =>
      rw [Function.iterate_succ_apply', ih (by omega)]
      simp only [int_incr, int_wrap]
      push_cast
      omega

theorem int_incr_iterate_succ (k : Nat) (x : Int) :
    int_incr ((int_incr^[k]) x) = (int_incr^[k + 1]) x :=
  (Function.iterate_succ_apply' int_incr k x).symm

theorem outcome_count_succ (c : checks) (o : outcome) (n : Nat) :
    outcome_count c o (n + 1) = outcome_count c o n + (if classify c n = o then 1 else 0) := by
  simp [outcome_count, List.range_succ, List.countP_append, List.countP_cons]

/-! ### Invariants of a campaign thread -/

theorem locals_ok_step (c : checks) (m : harness_mem) (t : kthread) :
    locals_ok (thread_step c m t).2 := by
  obtain ⟨flag, p, ai, i, tr⟩ := t
  unfold locals_ok
  cases p <;> simp only [thread_step] <;> (try split_ifs) <;> simp_all

theorem steps_left_step (c : checks) (m : harness_mem) (t : kthread) (h : locals_ok t)
    (hp : t.at_pc ≠ pc.exited) :
    steps_left (thread_step c m t).2 < steps_left t := by
  obtain ⟨flag, p, ai, i, tr⟩ := t
  unfold locals_ok at h
  cases p <;> simp only [thread_step] <;> (try split_ifs) <;> simp_all [steps_left] <;> (try omega)

theorem control_inv_start (apps : List app_definition) (idx : Nat) (ev : List evaluator_call)
    (h : idx < apps.length) : control_inv idx (campaign_start apps idx ev) := by
  simp [control_inv, campaign_start, kthread_new, h, in_trial]

theorem control_inv_step (c : checks) (b : Bool) (idx : Nat) (s : campaign)
    (h : control_inv idx s) : control_inv idx (campaign_step c b s) := by
  obtain ⟨⟨apps, cur, ev⟩, ⟨flag, p, ai, i, tr⟩⟩ := s
  unfold control_inv at *
  cases p <;> simp only [campaign_step, thread_step] <;> (try split_ifs) <;>
    simp_all [in_trial, app_update_length]
  all_goals omega

theorem counters_inv_step (c : checks) (b : Bool) (idx : Nat) (n0 a0 m0 f0 : Int) (s : campaign)
    (hc : control_inv idx s) (h : counters_inv c idx n0 a0 m0 f0 s) :
    counters_inv c idx n0 a0 m0 f0 (campaign_step c b s) := by
  obtain ⟨⟨apps, cur, ev⟩, ⟨flag, p, ai, i, tr⟩⟩ := s
  unfold counters_inv at *
  unfold control_inv at hc
  cases p <;> simp only [campaign_step, thread_step] <;> (try split_ifs) <;>
    simp_all [outcome_recorded, trial_counted, app_at_update_same, outcome_count_succ, classify,
      int_incr_iterate_succ]

theorem exit_inv_step (c : checks) (b : Bool) (idx : Nat) (s : campaign)
    (hc : control_inv idx s) (h : exit_inv idx s) : exit_inv idx (campaign_step c b s) := by
  obtain ⟨⟨apps, cur, ev⟩, ⟨flag, p, ai, i, tr⟩⟩ := s
  unfold exit_inv at *
  unfold control_inv at hc
  cases p <;> simp only [campaign_step, thread_step] <;> (try split_ifs) <;>
    simp_all [app_at_update_same]

theorem unstopped_inv_step (c : checks) (idx : Nat) (s : campaign)
    (hc : control_inv idx s) (h : unstopped_inv s) : unstopped_inv (campaign_step c false s) := by
  obtain ⟨⟨apps, cur, ev⟩, ⟨flag, p, ai, i, tr⟩⟩ := s
  unfold unstopped_inv at *
  unfold control_inv at hc
  cases p <;> simp only [campaign_step, thread_step] <;> (try split_ifs) <;>
    simp_all [in_trial]
  all_goals omega

theorem labels_inv_step (c : checks) (idx : Nat) (name : String)
    (ev0 : List evaluator_call) (s : campaign)
    (hc : control_inv idx s) (hu : s.th.should_stop = false) (h : labels_inv idx name ev0 s) :
    labels_inv idx name ev0 (campaign_step c false s) := by
  obtain ⟨⟨apps, cur, ev⟩, ⟨flag, p, ai, i, tr⟩⟩ := s
  unfold labels_inv at *
  unfold control_inv at hc
  cases p <;> simp only [campaign_step, thread_step] <;> (try split_ifs) <;>
    simp_all [label_logged, in_trial, app_at_update_same, start_labels, List.filterMap_append]
  simp [List.range_succ]

/-! ### Invariants along a campaign run -/

theorem campaign_run_control (c : checks) (sched : Nat → Bool) (apps : List app_definition)
    (idx : Nat) (ev : List evaluator_call) (h : idx < apps.length) (n : Nat) :
    control_inv idx (campaign_run c sched n (campaign_start apps idx ev)) := by
  induction n with
  | zero => exact control_inv_start apps idx ev h
  | succ k ih => exact control_inv_step c (sched k) idx _ ih

theorem campaign_run_counters (c : checks) (sched : Nat → Bool) (apps : List app_definition)
    (idx : Nat) (ev : List evaluator_call) (h : idx < apps.length) (n : Nat) :
    counters_inv c idx (app_at apps idx).num_trials (app_at apps idx).automatic_recovery
      (app_at apps idx).manual_recovery (app_at apps idx).failed_recovery
      (campaign_run c sched n (campaign_start apps idx ev)) := by
  induction n with
  | zero =>
      simp [counters_inv, campaign_run, campaign_start, kthread_new, trial_counted,
        outcome_recorded, outcome_count]
  | succ k ih =>
      exact counters_inv_step c (sched k) idx _ _ _ _ _
        (campaign_run_control c sched apps idx ev h k) ih

theorem campaign_run_exit (c : checks) (sched : Nat → Bool) (apps : List app_definition)
    (idx : Nat) (ev : List evaluator_call) (h : idx < apps.length) (n : Nat) :
    exit_inv idx (campaign_run c sched n (campaign_start apps idx ev)) := by
  induction n with
  | zero => simp [exit_inv, campaign_run, campaign_start, kthread_new]
  | succ k ih =>
      exact exit_inv_step c (sched k) idx _ (campaign_run_control c sched apps idx ev h k) ih

theorem campaign_run_unstopped (c : checks) (sched : Nat → Bool) (apps : List app_definition)
    (idx : Nat) (ev : List evaluator_call) (h : idx < apps.length)
    (hs : ∀ k, sched k = false) (n : Nat) :
    unstopped_inv (campaign_run c sched n (campaign_start apps idx ev)) := by
  induction n with
  | zero => simp [unstopped_inv, campaign_run, campaign_start, kthread_new]
  | succ k ih =>
      have := unstopped_inv_step c idx _ (campaign_run_control c sched apps idx ev h k) ih
      simpa [campaign_run, hs k] using this

theorem campaign_run_labels (c : checks) (sched : Nat → Bool) (apps : List app_definition)
    (idx : Nat) (ev : List evaluator_call) (h : idx < apps.length)
    (hs : ∀ k, sched k = false) (n : Nat) :
    labels_inv idx (app_at apps idx).name ev (campaign_run c sched n (campaign_start apps idx ev)) := by
  induction n with
  | zero => simp [labels_inv, campaign_run, campaign_start, kthread_new, label_logged, in_trial]
  | succ k ih =>
      have := labels_inv_step c idx _ ev _ (campaign_run_control c sched apps idx ev h k)
        (campaign_run_unstopped c sched apps idx ev h hs k).1 ih
      simpa [campaign_run, hs k] using this

theorem campaign_run_locals (c : checks) (sched : Nat → Bool) (s : campaign)
    (h : locals_ok s.th) (n : Nat) : locals_ok (campaign_run c sched n s).th := by
  cases n with
  | zero => exact h
  | succ k => exact locals_ok_step c _ _

theorem steps_left_campaign_step (c : checks) (b : Bool) (s : campaign) (h : locals_ok s.th)
    (hp : s.th.at_pc ≠ pc.exited) :
    steps_left (campaign_step c b s).th < steps_left s.th := by
  obtain ⟨m, ⟨flag, p, ai, i, tr⟩⟩ := s
  exact steps_left_step c m ⟨flag || b, p, ai, i, tr⟩ h hp

theorem campaign_step_exited (c : checks) (b : Bool) (s : campaign)
    (hp : s.th.at_pc = pc.exited) : (campaign_step c b s).th.at_pc = pc.exited := by
  simp only [campaign_step, thread_step, hp]

theorem campaign_run_steps (c : checks) (sched : Nat → Bool) (s : campaign)
    (h : locals_ok s.th) (n : Nat) :
    (campaign_run c sched n s).th.at_pc = pc.exited ∨
      steps_left (campaign_run c sched n s).th + n ≤ steps_left s.th := by
  induction n with
  | zero => right; simp [campaign_run]
  | succ k ih =>
      have hl := campaign_run_locals c sched s h k
      by_cases hp : (campaign_run c sched k s).th.at_pc = pc.exited
      · left
        exact campaign_step_exited c (sched k) _ hp
      · right
        have hd := steps_left_campaign_step c (sched k) _ hl hp
        rcases ih with ih | ih
        · exact absurd ih hp
        · simp only [campaign_run]
          omega

theorem campaign_run_exited (c : checks) (sched : Nat → Bool) (apps : List app_definition)
    (idx : Nat) (ev : List evaluator_call) (n : Nat) (hn : CAMPAIGN_STEPS ≤ n) :
    (campaign_run c sched n (campaign_start apps idx ev)).th.at_pc = pc.exited := by
  have h := campaign_run_steps c sched (campaign_start apps idx ev)
    (by simp [locals_ok, campaign_start, kthread_new]) n
  rcases h with h | h
  · exact h
  · have h0 : steps_left (campaign_start apps idx ev).th = 16004 := rfl
    have h1 : CAMPAIGN_STEPS = 16008 := rfl
    omega

theorem outcome_count_total (c : checks) (n : Nat) :
    outcome_count c outcome.automatic n + outcome_count c outcome.manual n +
      outcome_count c outcome.failed n = n := by
  induction n with
  | zero => simp [outcome_count]
  | succ k ih =>
      simp only [outcome_count_succ, classify]
      by_cases h1 : c.auto k = true <;> by_cases h2 : c.manual k = true <;> simp [h1, h2] <;> omega

theorem outcome_count_le (c : checks) (o : outcome) (n : Nat) : outcome_count c o n ≤ n := by
  have h := outcome_count_total c n
  cases o <;> omega

/-! ### Decimal rendering of the trial number -/

theorem digitChar_isdigit : ∀ d, d < 10 →
    isdigit (Nat.digitChar d) = true ∧ (Nat.digitChar d).toNat - 48 = d := by
  decide

theorem toDigitsCore_append (n : Nat) : ∀ (f : Nat) (ds : List Char), n < f →
    Nat.toDigitsCore 10 f n ds = Nat.toDigitsCore 10 (n + 1) n [] ++ ds := by
  induction n using Nat.strong_induction_on with
  | _ n ih =>
      intro f ds hf
      cases f with
      | zero => omega
      | succ g =>
          by_cases h0 : n / 10 = 0
          · simp [Nat.toDigitsCore, h0]
          · have hlt : n / 10 < n := by omega
            have hg : n / 10 < g := by omega
            simp only [Nat.toDigitsCore, h0, if_false]
            rw [ih (n / 10) hlt g _ hg, ih (n / 10) hlt n _ hlt]
            simp

theorem toDigits_small (n : Nat) (h : n < 10) : Nat.toDigits 10 n = [Nat.digitChar n] := by
  have h0 : n / 10 = 0 := by omega
  have h1 : n % 10 = n := by omega
  simp [Nat.toDigits, Nat.toDigitsCore, h0, h1]

theorem toDigits_large (n : Nat) (h : 10 ≤ n) :
    Nat.toDigits 10 n = Nat.toDigits 10 (n / 10) ++ [Nat.digitChar (n % 10)] := by
  have h0 : ¬ n / 10 = 0 := by omega
  have hlt : n / 10 < n := by omega
  have e1 : Nat.toDigitsCore 10 (n + 1) n [] =
      Nat.toDigitsCore 10 n (n / 10) [Nat.digitChar (n % 10)] := by
    simp [Nat.toDigitsCore, h0]
  show Nat.toDigitsCore 10 (n + 1) n [] =
    Nat.toDigitsCore 10 (n / 10 + 1) (n / 10) [] ++ [Nat.digitChar (n % 10)]
  rw [e1, toDigitsCore_append (n / 10) n _ hlt]

theorem parse_digits_snoc (l : List Char) (d : Char) (hl : ∀ ch ∈ l, isdigit ch = true)
    (hd : isdigit d = true) : ∀ acc,
    parse_digits acc (l ++ [d]) = parse_digits acc l * 10 + (d.toNat - 48) := by
  induction l with
  | nil => intro acc; simp [parse_digits, hd]
  | cons x xs ih =>
      intro acc
      have hx : isdigit x = true := hl x (by simp)
      simp only [List.cons_append, parse_digits, hx, if_true]
      exact ih (fun ch hch => hl ch (by simp [hch])) _

theorem toDigits_spec (n : Nat) :
    (∀ ch ∈ Nat.toDigits 10 n, isdigit ch = true) ∧ parse_digits 0 (Nat.toDigits 10 n) = n := by
  induction n using Nat.strong_induction_on with
  | _ n ih =>
      by_cases h : n < 10
      · rw [toDigits_small n h]
        have := digitChar_isdigit n h
        simp [parse_digits, this.1, this.2]
      · have hlt : n / 10 < n := by omega
        have hd := digitChar_isdigit (n % 10) (by omega)
        obtain ⟨h1, h2⟩ := ih (n / 10) hlt
        rw [toDigits_large n (by omega)]
        constructor
        · intro ch hch
          simp only [List.mem_append, List.mem_singleton] at hch
          rcases hch with hch | hch
          · exact h1 ch hch
          · rw [hch]; exact hd.1
        · rw [parse_digits_snoc _ _ h1 hd.1, h2, hd.2]
          omega

theorem toDigits_injective (a b : Nat) (h : Nat.toDigits 10 a = Nat.toDigits 10 b) : a = b := by
  have ha := (toDigits_spec a).2
  have hb := (toDigits_spec b).2
  rw [h] at ha
  omega

theorem toDigits_length (n : Nat) (h : n < 1000) : (Nat.toDigits 10 n).length ≤ 3 :=
  Nat.toDigitsCore_length 10 (by decide) (n + 1) n 3 h (by decide)

theorem test_name_injective (name : String) (a b : Nat) (hname : name.length ≤ 63)
    (ha : a < 1000) (hb : b < 1000) (h : test_name name a = test_name name b) : a = b := by
  unfold test_name at h
  have hla := toDigits_length a ha
  have hlb := toDigits_length b hb
  have hn : name.toList.length ≤ 63 := hname
  have h7 : "_trial_".toList.length = 7 := rfl
  have h2 := congrArg String.data h
  simp only at h2
  rw [List.take_of_length_le (by simp only [List.length_append]; omega),
    List.take_of_length_le (by simp only [List.length_append]; omega)] at h2
  exact toDigits_injective a b (List.append_cancel_left h2)

theorem test_names_nodup (name : String) (hname : name.length ≤ 63) :
    ((List.range 400).map (test_name name)).Nodup := by
  refine List.Nodup.map_on ?_ (List.nodup_range 400)
  intro a ha b hb h
  simp only [List.mem_range] at ha hb
  exact test_name_injective name a b hname (by omega) (by omega) h

theorem int_incr_iterate_wrap (k : Nat) (x : Int) :
    (int_incr^[k + 1]) x = int_wrap (x + (k + 1 : Nat)) := by
  induction k with
  | zero => simp [int_incr]
  | succ n ih =>
      rw [Function.iterate_succ_apply', ih]
      simp only [int_incr, int_wrap]
      push_cast
      omega

/-! ### Command text -/

theorem match_literal_some (l : List Char) :
    ∀ (inp rest : List Char), match_literal l inp = some rest → inp = l ++ rest := by
  induction l with
  | nil => intro inp rest h; simpa [match_literal] using h
  | cons x xs ih =>
      intro inp rest h
      cases inp with
      | nil => simp [match_literal] at h
      | cons y ys =>
          by_cases hxy : x = y
          · subst hxy
            simp only [match_literal, if_true] at h
            rw [ih ys rest h]; rfl
          · simp [match_literal, hxy] at h

theorem stop_lit : "stop".toList = ['s', 't', 'o', 'p'] := rfl

theorem start_lit : "start".toList = ['s', 't', 'a', 'r', 't'] := rfl
theorem reset_lit : "reset".toList = ['r', 'e', 's', 'e', 't'] := rfl

theorem sscanf_some_shape (cmd : List Char) (n : Int) (h : sscanf_start_d cmd = some n) :
    ∃ rest, cmd = 's' :: 't' :: 'a' :: 'r' :: 't' :: rest := by
  unfold sscanf_start_d at h
  cases hm : match_literal "start".toList cmd with
  | none => rw [hm] at h; simp at h
  | some rest =>
      refine ⟨rest, ?_⟩
      have := match_literal_some _ _ _ hm
      rw [this, start_lit]; rfl

theorem else_after_start (c : checks) (s : harness_state) (cmd : List Char) (count : Nat) (n : Int)
    (h : sscanf_start_d cmd = some n) :
    harness_proc_write_else c s cmd count = (s, (count : Int)) := by
  obtain ⟨rest, rfl⟩ := sscanf_some_shape cmd n h
  simp [harness_proc_write_else, strncmp_eq, stop_lit, reset_lit]

theorem reset_shape (cmd : List Char) (h : cmd.take 5 = "reset".toList) :
    ∃ rest, cmd = 'r' :: 'e' :: 's' :: 'e' :: 't' :: rest := by
  rw [reset_lit] at h
  match cmd, h with
  | [_, _, _, _, _], h => simp at h; obtain ⟨rfl, rfl, rfl, rfl, rfl⟩ := h; exact ⟨[], rfl⟩
  | _ :: _ :: _ :: _ :: _ :: x :: rest, h =>
      simp at h; obtain ⟨rfl, rfl, rfl, rfl, rfl⟩ := h; exact ⟨x :: rest, rfl⟩

theorem write_reset (c : checks) (s : harness_state) (buffer : List Char) (count : Nat)
    (kr : kthread_run_result) (hcopy : min count 63 ≤ buffer.length)
    (hcmd : (c_string buffer (min count 63)).take 5 = "reset".toList) :
    harness_proc_write c s buffer count kr =
      ({ s with mem := { s.mem with apps := s.mem.apps.map zeroed } }, (count : Int)) := by
  have hlen : ¬ buffer.length < min count 63 := by omega
  obtain ⟨rest, hrest⟩ := reset_shape _ hcmd
  unfold harness_proc_write
  simp only [hlen, if_false, hrest]
  have hs : sscanf_start_d ('r' :: 'e' :: 's' :: 'e' :: 't' :: rest) = none := by
    simp [sscanf_start_d, start_lit, match_literal]
  simp [hs, harness_proc_write_else, strncmp_eq, stop_lit, reset_lit, zeroed]

theorem zeroed_zeroed (a : app_definition) : zeroed (zeroed a) = zeroed a := rfl


/-! ### One thread stepping alone in the module state -/

theorem thread_tick_single (c : checks) (s : harness_state) (t : kthread)
    (h : s.threads = [t]) :
    thread_tick c s 0 =
      { s with mem := (campaign_step c false ⟨s.mem, t⟩).mem,
               threads := [(campaign_step c false ⟨s.mem, t⟩).th] } := by
  obtain ⟨flag, p, ai, i, tr⟩ := t
  simp [thread_tick, h, thread_set, campaign_step]

theorem harness_run_ticks (c : checks) (s : harness_state) (t : kthread)
    (h : s.threads = [t]) (n : Nat) :
    harness_run c s (List.replicate n (event.tick 0)) =
      { s with mem := (campaign_run c (fun _ => false) n ⟨s.mem, t⟩).mem,
               threads := [(campaign_run c (fun _ => false) n ⟨s.mem, t⟩).th] } := by
  induction n with
  | zero =>
      obtain ⟨m, at_, th, ks, pk⟩ := s
      simp only at h
      subst h
      simp [harness_run, campaign_run]
  | succ k ih =>
      unfold harness_run at ih ⊢
      rw [List.replicate_succ', List.foldl_append, ih]
      simp only [List.foldl_cons, List.foldl_nil, harness_step]
      rw [thread_tick_single c _ _ rfl]
      simp [campaign_run]


theorem write_stop_returned (c : checks) (s : harness_state) (kr : kthread_run_result)
    (tid : Nat) (t : kthread) (hat : s.app_thread = task_ptr.task tid)
    (hget : s.threads.get? tid = some t) (hex : t.at_pc = pc.exited) :
    harness_proc_write c s "stop".toList 4 kr =
      ({ s with kthread_stop_calls := s.kthread_stop_calls ++ [task_ptr.task tid],
                app_thread := task_ptr.null }, 4) := by
  have hcmd : c_string "stop".toList (min 4 63) = ['s', 't', 'o', 'p'] := by decide
  have hlen : ¬ "stop".toList.length < min 4 63 := by decide
  have hscan : sscanf_start_d ['s', 't', 'o', 'p'] = none := by decide
  unfold harness_proc_write
  simp only [hlen, if_false, hcmd, hscan]
  simp only [harness_proc_write_else, strncmp_eq, stop_lit, hat, kthread_stop, hget, hex]
  simp

theorem start_then_ticks (n : Nat) :
    harness_run source_checks harness_init
      (event.write "start 0".toList 7 kthread_run_result.created ::
        List.replicate n (event.tick 0)) =
      { harness_init with
        mem := (campaign_run source_checks (fun _ => false) n (campaign_start test_apps 0 [])).mem,
        app_thread := task_ptr.task 0,
        threads := [(campaign_run source_checks (fun _ => false) n
          (campaign_start test_apps 0 [])).th] } := by
  have hs1 : harness_step source_checks harness_init
      (event.write "start 0".toList 7 kthread_run_result.created) =
      { harness_init with app_thread := task_ptr.task 0, threads := [kthread_new] } := by decide
  have hrun : harness_run source_checks harness_init
      (event.write "start 0".toList 7 kthread_run_result.created ::
        List.replicate n (event.tick 0)) =
      harness_run source_checks
        { harness_init with app_thread := task_ptr.task 0, threads := [kthread_new] }
        (List.replicate n (event.tick 0)) := by
    simp only [harness_run, List.foldl_cons, hs1]
  rw [hrun, harness_run_ticks source_checks _ kthread_new rfl n]
  rfl

theorem natural_completion_general (n : Nat) (hn : CAMPAIGN_STEPS ≤ n) :
    (harness_run source_checks harness_init
      (event.write "start 0".toList 7 kthread_run_result.created ::
        List.replicate n (event.tick 0))).threads.map
          (fun t => (t.at_pc, t.trial, t.should_stop)) = [(pc.exited, 400, false)] ∧
    (harness_run source_checks harness_init
      (event.write "start 0".toList 7 kthread_run_result.created ::
        List.replicate n (event.tick 0))).app_thread = task_ptr.task 0 ∧
    (harness_run source_checks harness_init
      (event.write "start 0".toList 7 kthread_run_result.created ::
        List.replicate n (event.tick 0))).kthread_stop_calls = [] ∧
    (harness_proc_write source_checks
      (harness_run source_checks harness_init
        (event.write "start 0".toList 7 kthread_run_result.created ::
          List.replicate n (event.tick 0)))
      "stop".toList 4 kthread_run_result.created).1.kthread_stop_calls = [task_ptr.task 0] ∧
    (harness_proc_write source_checks
      (harness_run source_checks harness_init
        (event.write "start 0".toList 7 kthread_run_result.created ::
          List.replicate n (event.tick 0)))
      "stop".toList 4 kthread_run_result.created).1.app_thread = task_ptr.null := by
  have he := campaign_run_exited source_checks (fun _ => false) test_apps 0 [] n hn
  have hu := campaign_run_unstopped source_checks (fun _ => false) test_apps 0 [] (by decide)
    (fun _ => rfl) n
  obtain ⟨hflag, h400⟩ := hu
  have h400 := h400 (Or.inr he)
  rw [start_then_ticks n]
  generalize campaign_run source_checks (fun _ => false) n (campaign_start test_apps 0 []) = s
    at he hflag h400 ⊢
  rw [write_stop_returned source_checks
    { harness_init with mem := s.mem, app_thread := task_ptr.task 0, threads := [s.th] }
    kthread_run_result.created 0 s.th rfl rfl he]
  simp [he, h400, hflag, harness_init]

theorem app_update_counters (f : app_definition → app_definition)
    (hf : ∀ a, counters (f a) = counters a) (idx : Nat) (apps : List app_definition) :
    (app_update f idx apps).map counters = apps.map counters := by
  induction apps generalizing idx with
  | nil => simp [app_update]
  | cons a rest ih => cases idx <;> simp [app_update, ih, hf]

/-! ### The wait in `kthread_stop` comes to an end -/

theorem steps_left_le (t : kthread) : steps_left t ≤ CAMPAIGN_STEPS := by
  obtain ⟨flag, p, ai, i, tr⟩ := t
  have h : CAMPAIGN_STEPS = 16008 := rfl
  cases p <;> simp only [steps_left, h] <;> omega

theorem run_to_exit_exited (c : checks) (fuel : Nat) :
    ∀ (m : harness_mem) (t : kthread), locals_ok t → steps_left t ≤ fuel →
      (run_to_exit c fuel m t).2.at_pc = pc.exited := by
  induction fuel with
  | zero =>
      intro m t _ h
      obtain ⟨flag, p, ai, i, tr⟩ := t
      cases p <;> simp [steps_left] at h
      rfl
  | succ k ih =>
      intro m t hl h
      by_cases hp : t.at_pc = pc.exited
      · simp [run_to_exit, hp]
      · have hd := steps_left_step c m t hl hp
        simp only [run_to_exit, hp, if_false]
        exact ih _ _ (locals_ok_step c m t) (by omega)

theorem kthread_stop_waits (c : checks) (m : harness_mem) (t : kthread) (hl : locals_ok t) :
    (run_to_exit c CAMPAIGN_STEPS m { t with should_stop := true }).2.at_pc = pc.exited :=
  run_to_exit_exited c CAMPAIGN_STEPS m _ hl (steps_left_le _)

/-! ### Reading back a written index -/

theorem isdigit_facts (ch : Char) (h : isdigit ch = true) :
    isspace ch = false ∧ ch ≠ '-' ∧ ch ≠ Char.ofNat 0 := by
  have hb : 48 ≤ ch.toNat ∧ ch.toNat ≤ 57 := by simpa [isdigit] using h
  have hne : ∀ d : Char, d.toNat < 48 → ch ≠ d := by
    intro d hd e
    rw [e] at hb
    omega
  refine ⟨?_, hne _ (by decide), hne _ (by decide)⟩
  have h1 := hne ' ' (by decide)
  have h2 := hne '\t' (by decide)
  have h3 := hne '\n' (by decide)
  have h4 := hne '\r' (by decide)
  have h5 : ch.toNat ≠ 11 := by omega
  have h6 : ch.toNat ≠ 12 := by omega
  simp [isspace, h1, h2, h3, h4, h5, h6]

theorem parse_digits_append (l rest : List Char) (hl : ∀ ch ∈ l, isdigit ch = true)
    (hr : ∀ ch, rest.head? = some ch → isdigit ch = false) :
    ∀ acc, parse_digits acc (l ++ rest) = parse_digits acc l := by
  induction l with
  | nil =>
      intro acc
      cases rest with
      | nil => rfl
      | cons x xs => simp [parse_digits, hr x rfl]
  | cons x xs ih =>
      intro acc
      have hx : isdigit x = true := hl x (by simp)
      simp only [List.cons_append, parse_digits, hx, if_true]
      exact ih (fun ch hch => hl ch (by simp [hch])) _

theorem toDigits_cons (k : Nat) :
    ∃ d ds, Nat.toDigits 10 k = d :: ds ∧ isdigit d = true := by
  have hs := (toDigits_spec k).1
  cases hk : Nat.toDigits 10 k with
  | nil =>
      exfalso
      by_cases h : k < 10
      · rw [toDigits_small k h] at hk; simp at hk
      · rw [toDigits_large k (by omega)] at hk; simp at hk
  | cons d ds => exact ⟨d, ds, rfl, hs d (by rw [hk]; simp)⟩

theorem scan_digits (k : Nat) (rest : List Char)
    (hr : ∀ ch, rest.head? = some ch → isdigit ch = false) :
    parse_digits 0 (Nat.toDigits 10 k ++ rest) = k := by
  rw [parse_digits_append _ _ (toDigits_spec k).1 hr, (toDigits_spec k).2]

theorem sscanf_unsigned (d : Char) (tl : List Char) (hdig : isdigit d = true) :
    sscanf_start_d ('s' :: 't' :: 'a' :: 'r' :: 't' :: ' ' :: d :: tl) =
      some (int_wrap (parse_digits 0 (d :: tl) : Int)) := by
  have hf := isdigit_facts d hdig
  have hsp : isspace ' ' = true := by decide
  simp [sscanf_start_d, start_lit, match_literal, skip_spaces, hsp, hf.1, hf.2.1, hdig]

theorem sscanf_negative (d : Char) (tl : List Char) (hdig : isdigit d = true) :
    sscanf_start_d ('s' :: 't' :: 'a' :: 'r' :: 't' :: ' ' :: '-' :: d :: tl) =
      some (int_wrap (-(parse_digits 0 (d :: tl) : Int))) := by
  have hsp : isspace ' ' = true := by decide
  have hm : isspace '-' = false := by decide
  simp [sscanf_start_d, start_lit, match_literal, skip_spaces, hsp, hm, hdig]

theorem sscanf_decimal_text (n : Int) (rest : List Char)
    (hr : ∀ ch, rest.head? = some ch → isdigit ch = false) :
    sscanf_start_d ("start ".toList ++ decimal_text n ++ rest) = some (int_wrap n) := by
  have hlit : "start ".toList = ['s', 't', 'a', 'r', 't', ' '] := rfl
  by_cases hneg : n < 0
  · obtain ⟨d, ds, hd, hdig⟩ := toDigits_cons n.natAbs
    have hv := scan_digits n.natAbs rest hr
    rw [hd] at hv
    have hshape : "start ".toList ++ decimal_text n ++ rest =
        's' :: 't' :: 'a' :: 'r' :: 't' :: ' ' :: '-' :: d :: (ds ++ rest) := by
      simp [decimal_text, hneg, hlit, hd]
    rw [hshape, sscanf_negative d _ hdig]
    have hv2 : parse_digits 0 (d :: (ds ++ rest)) = n.natAbs := hv
    rw [hv2]
    congr 2
    omega
  · obtain ⟨d, ds, hd, hdig⟩ := toDigits_cons n.toNat
    have hv := scan_digits n.toNat rest hr
    rw [hd] at hv
    have hshape : "start ".toList ++ decimal_text n ++ rest =
        's' :: 't' :: 'a' :: 'r' :: 't' :: ' ' :: d :: (ds ++ rest) := by
      simp [decimal_text, hneg, hlit, hd]
    rw [hshape, sscanf_unsigned d _ hdig]
    have hv2 : parse_digits 0 (d :: (ds ++ rest)) = n.toNat := hv
    rw [hv2]
    congr 2
    omega

theorem decimal_text_no_nul (n : Int) : ∀ ch ∈ decimal_text n, ch ≠ Char.ofNat 0 := by
  intro ch hch
  unfold decimal_text at hch
  split at hch
  · simp only [List.mem_cons] at hch
    rcases hch with rfl | hch
    · decide
    · exact (isdigit_facts ch ((toDigits_spec _).1 ch hch)).2.2
  · exact (isdigit_facts ch ((toDigits_spec _).1 ch hch)).2.2

theorem c_string_command (n : Int) (tail : List Char)
    (hfit : ("start ".toList ++ decimal_text n ++ tail).length ≤ 63) :
    c_string ("start ".toList ++ decimal_text n ++ tail)
        (min ("start ".toList ++ decimal_text n ++ tail).length 63) =
      "start ".toList ++ decimal_text n ++ tail.takeWhile (fun ch => ch ≠ Char.ofNat 0) := by
  unfold c_string
  rw [Nat.min_eq_left hfit, List.take_length]
  rw [List.takeWhile_append_of_pos]
  intro a ha
  simp only [List.mem_append] at ha
  rcases ha with ha | ha
  · have : a ∈ ['s', 't', 'a', 'r', 't', ' '] := ha
    simp only [List.mem_cons, List.mem_singleton, List.not_mem_nil, or_false] at this
    rcases this with rfl | rfl | rfl | rfl | rfl | rfl <;> decide
  · simpa using decimal_text_no_nul n a ha

theorem takeWhile_head_not_digit (tail : List Char)
    (htail : ∀ ch, tail.head? = some ch → isdigit ch = false) :
    ∀ ch, (tail.takeWhile (fun ch => ch ≠ Char.ofNat 0)).head? = some ch →
      isdigit ch = false := by
  intro ch hch
  rw [List.head?_takeWhile] at hch
  cases tail with
  | nil => simp at hch
  | cons x xs =>
      simp only [List.head?_cons, Option.filter] at hch
      split at hch
      · simp only [Option.some.injEq] at hch
        exact htail ch (by simp [hch])
      · simp at hch

theorem write_start_ignored (c : checks) (s : harness_state) (buffer : List Char)
    (count : Nat) (kr : kthread_run_result) (n : Int)
    (hcopy : min count 63 ≤ buffer.length)
    (hscan : sscanf_start_d (c_string buffer (min count 63)) = some n)
    (hn : ¬ (0 ≤ n ∧ n < 6)) :
    harness_proc_write c s buffer count kr = (s, (count : Int)) := by
  have hlen : ¬ buffer.length < min count 63 := by omega
  have h6 : (NUM_TEST_APPS : Int) = 6 := rfl
  unfold harness_proc_write
  simp only [hlen, if_false, hscan, h6, hn]
  exact else_after_start c s _ count n hscan

/-! ### Properties of the specification -/

/-- C1. Counter accounting: in a campaign on an entry whose four counters are
zero at the start, with nothing else writing the counters, whenever the thread
is not between the increment of an outcome counter and `trial++`, and `trial`
(the number of completed loop iterations) is `N`: `N ≤ 400`,
`num_trials = N`, the three outcome counters add up to `num_trials`, and each
outcome counter equals the number of trials `0 .. N-1` with that
classification (so each completed trial adds one to `num_trials` and one to
exactly one outcome counter), whatever the two checks answer and whatever
the cancellation schedule. -/
theorem counter_accounting (c : checks) (sched : Nat → Bool) (apps : List app_definition)
    (idx : Nat) (ev : List evaluator_call) (n : Nat) (hidx : idx < apps.length)
    (h0 : (app_at apps idx).num_trials = 0 ∧ (app_at apps idx).automatic_recovery = 0 ∧
      (app_at apps idx).manual_recovery = 0 ∧ (app_at apps idx).failed_recovery = 0) :
    (campaign_run c sched n (campaign_start apps idx ev)).th.trial ≤ 400 ∧
    (outcome_recorded (campaign_run c sched n (campaign_start apps idx ev)).th.at_pc = false →
      (app_at (campaign_run c sched n (campaign_start apps idx ev)).mem.apps idx).num_trials =
        (campaign_run c sched n (campaign_start apps idx ev)).th.trial ∧
      (app_at (campaign_run c sched n (campaign_start apps idx ev)).mem.apps idx).automatic_recovery +
        (app_at (campaign_run c sched n (campaign_start apps idx ev)).mem.apps idx).manual_recovery +
        (app_at (campaign_run c sched n (campaign_start apps idx ev)).mem.apps idx).failed_recovery =
        (app_at (campaign_run c sched n (campaign_start apps idx ev)).mem.apps idx).num_trials ∧
      (app_at (campaign_run c sched n (campaign_start apps idx ev)).mem.apps idx).automatic_recovery =
        outcome_count c outcome.automatic
          (campaign_run c sched n (campaign_start apps idx ev)).th.trial ∧
      (app_at (campaign_run c sched n (campaign_start apps idx ev)).mem.apps idx).manual_recovery =
        outcome_count c outcome.manual
          (campaign_run c sched n (campaign_start apps idx ev)).th.trial ∧
      (app_at (campaign_run c sched n (campaign_start apps idx ev)).mem.apps idx).failed_recovery =
        outcome_count c outcome.failed
          (campaign_run c sched n (campaign_start apps idx ev)).th.trial) := by
  have hc := campaign_run_control c sched apps idx ev hidx n
  have hk := campaign_run_counters c sched apps idx ev hidx n
  obtain ⟨h1, h2, h3, h4⟩ := h0
  rw [h1, h2, h3, h4] at hk
  generalize campaign_run c sched n (campaign_start apps idx ev) = s at hc hk ⊢
  obtain ⟨_, _, _, _, hle, _⟩ := hc
  refine ⟨hle, fun hrec => ?_⟩
  obtain ⟨k1, k2, k3, k4, _⟩ := hk
  have htc : trial_counted s.th.at_pc = false := by
    revert hrec; cases s.th.at_pc <;> simp [outcome_recorded, trial_counted]
  simp only [hrec, htc, Bool.false_eq_true, if_false, Nat.add_zero] at k1 k2 k3 k4
  have ha := outcome_count_le c outcome.automatic s.th.trial
  have hm := outcome_count_le c outcome.manual s.th.trial
  have hf := outcome_count_le c outcome.failed s.th.trial
  have ht := outcome_count_total c s.th.trial
  rw [int_incr_iterate _ (by omega)] at k1 k2 k3 k4
  refine ⟨k1, ?_, k2, k3, k4⟩
  rw [k1, k2, k3, k4]
  exact_mod_cast ht

set_option maxRecDepth 8000 in
/-- Witness for C1: a campaign on entry 0 of the initial table with checks
that take all three branches, observed after 120 steps (three trials
completed, the fourth in its workload). -/
theorem counter_accounting_witness :
    (0 < test_apps.length ∧ (app_at test_apps 0).num_trials = 0 ∧
      (app_at test_apps 0).automatic_recovery = 0 ∧ (app_at test_apps 0).manual_recovery = 0 ∧
      (app_at test_apps 0).failed_recovery = 0) ∧
    (campaign_run sample_checks never_stop 120 (campaign_start test_apps 0 [])).th.trial = 3 ∧
    (app_at (campaign_run sample_checks never_stop 120
      (campaign_start test_apps 0 [])).mem.apps 0).num_trials =
      (campaign_run sample_checks never_stop 120 (campaign_start test_apps 0 [])).th.trial ∧
    (app_at (campaign_run sample_checks never_stop 120
      (campaign_start test_apps 0 [])).mem.apps 0).automatic_recovery +
      (app_at (campaign_run sample_checks never_stop 120
        (campaign_start test_apps 0 [])).mem.apps 0).manual_recovery +
      (app_at (campaign_run sample_checks never_stop 120
        (campaign_start test_apps 0 [])).mem.apps 0).failed_recovery =
      (app_at (campaign_run sample_checks never_stop 120
        (campaign_start test_apps 0 [])).mem.apps 0).num_trials :=
  ⟨by decide, by decide,
    ((counter_accounting sample_checks never_stop test_apps 0 [] 120 (by decide) (by decide)).2
      (by decide)).1,
    ((counter_accounting sample_checks never_stop test_apps 0 [] 120 (by decide) (by decide)).2
      (by decide)).2.1⟩

/-- C2. Single flight is not maintained: after `start 0`, two steps of the
first thread (it has set `is_running` of entry 0), `start 1` and two steps of
the second thread, the entries 0 and 1 both have `is_running = true` and two
campaign threads are alive in their loops; `app_thread` designates only the
second one, so a following `stop` ends the second thread and leaves the first
one running with no handle on it. -/
theorem single_flight_violated :
    (harness_run source_checks harness_init
      [write_cmd "start 0" kthread_run_result.created, event.tick 0, event.tick 0,
        write_cmd "start 1" kthread_run_result.created, event.tick 1, event.tick 1]).mem.apps.map
          (fun a => a.is_running) = [true, true, false, false, false, false] ∧
    (harness_run source_checks harness_init
      [write_cmd "start 0" kthread_run_result.created, event.tick 0, event.tick 0,
        write_cmd "start 1" kthread_run_result.created, event.tick 1, event.tick 1]).threads.map
          (fun t => (t.at_pc, t.app_idx)) = [(pc.loop_head, 0), (pc.loop_head, 1)] ∧
    (harness_run source_checks harness_init
      [write_cmd "start 0" kthread_run_result.created, event.tick 0, event.tick 0,
        write_cmd "start 1" kthread_run_result.created, event.tick 1, event.tick 1]).app_thread =
          task_ptr.task 1 ∧
    (harness_run source_checks harness_init
      [write_cmd "start 0" kthread_run_result.created, event.tick 0, event.tick 0,
        write_cmd "start 1" kthread_run_result.created, event.tick 1, event.tick 1,
        write_cmd "stop" kthread_run_result.created]).threads.map
          (fun t => t.at_pc) = [pc.loop_head, pc.exited] ∧
    (harness_run source_checks harness_init
      [write_cmd "start 0" kthread_run_result.created, event.tick 0, event.tick 0,
        write_cmd "start 1" kthread_run_result.created, event.tick 1, event.tick 1,
        write_cmd "stop" kthread_run_result.created]).app_thread = task_ptr.null := by
  decide

/-- C3. Double start can create a second thread: `is_running` is set by the
thread itself, so when the second `start 0` arrives before the first thread
has executed its first statements, the guard sees `is_running = false`; the
command prints no warning, creates a second thread and overwrites
`app_thread`. Once the first thread has set the flag (two steps), the same
command does take the warning branch and changes nothing but the log. -/
theorem double_start_creates_second_thread :
    (harness_proc_write source_checks
      (harness_run source_checks harness_init [write_cmd "start 0" kthread_run_result.created])
      "start 0".toList 7 kthread_run_result.created).2 = 7 ∧
    (harness_proc_write source_checks
      (harness_run source_checks harness_init [write_cmd "start 0" kthread_run_result.created])
      "start 0".toList 7 kthread_run_result.created).1.threads = [kthread_new, kthread_new] ∧
    (harness_proc_write source_checks
      (harness_run source_checks harness_init [write_cmd "start 0" kthread_run_result.created])
      "start 0".toList 7 kthread_run_result.created).1.printk = [] ∧
    (harness_run source_checks harness_init
      [write_cmd "start 0" kthread_run_result.created]).app_thread = task_ptr.task 0 ∧
    (harness_proc_write source_checks
      (harness_run source_checks harness_init [write_cmd "start 0" kthread_run_result.created])
      "start 0".toList 7 kthread_run_result.created).1.app_thread = task_ptr.task 1 ∧
    harness_proc_write source_checks
      (harness_run source_checks harness_init
        [write_cmd "start 0" kthread_run_result.created, event.tick 0, event.tick 0])
      "start 0".toList 7 kthread_run_result.created =
      ({ harness_run source_checks harness_init
          [write_cmd "start 0" kthread_run_result.created, event.tick 0, event.tick 0] with
          printk := [(log_level.KERN_WARNING, "App 0 is already running\n")] }, 7) := by
  decide

/-- C4 (amended). Cancellation abandons the in-flight trial when it arrives
before the fault is injected: in any state of a campaign, if a stop request
arrives while the thread is in the workload loop of a trial or at the check
that follows it (lines 57-63), the thread returns within four steps without
touching any counter of any entry, and `trial` is unchanged. If it arrives while the thread is at the recovery wait
(line 72), the trial in flight is completed: the thread returns within
thirteen steps with `trial` one higher, `num_trials` of its entry incremented
once and exactly the outcome counter of the trial's classification
incremented once. -/
theorem cancellation_in_trial (c : checks) (sched : Nat → Bool) (m : harness_mem)
    (t : kthread) (hs : sched 0 = true) (hidx : t.app_idx < m.apps.length) :
    (t.at_pc = pc.work_cond ∨ t.at_pc = pc.work_sleep ∨ t.at_pc = pc.stop_check →
      (campaign_run c sched 4 ⟨m, t⟩).th.at_pc = pc.exited ∧
      (campaign_run c sched 4 ⟨m, t⟩).th.trial = t.trial ∧
      (campaign_run c sched 4 ⟨m, t⟩).mem.apps.map counters = m.apps.map counters) ∧
    (t.at_pc = pc.recovery_wait →
      (campaign_run c sched 13 ⟨m, t⟩).th.at_pc = pc.exited ∧
      (campaign_run c sched 13 ⟨m, t⟩).th.trial = t.trial + 1 ∧
      (app_at (campaign_run c sched 13 ⟨m, t⟩).mem.apps t.app_idx).num_trials =
        int_incr (app_at m.apps t.app_idx).num_trials ∧
      (app_at (campaign_run c sched 13 ⟨m, t⟩).mem.apps t.app_idx).automatic_recovery =
        (if classify c t.trial = outcome.automatic
          then int_incr (app_at m.apps t.app_idx).automatic_recovery
          else (app_at m.apps t.app_idx).automatic_recovery) ∧
      (app_at (campaign_run c sched 13 ⟨m, t⟩).mem.apps t.app_idx).manual_recovery =
        (if classify c t.trial = outcome.manual
          then int_incr (app_at m.apps t.app_idx).manual_recovery
          else (app_at m.apps t.app_idx).manual_recovery) ∧
      (app_at (campaign_run c sched 13 ⟨m, t⟩).mem.apps t.app_idx).failed_recovery =
        (if classify c t.trial = outcome.failed
          then int_incr (app_at m.apps t.app_idx).failed_recovery
          else (app_at m.apps t.app_idx).failed_recovery)) := by
  obtain ⟨flag, p, ai, i, tr⟩ := t
  simp only at hidx
  constructor
  · intro hpc
    simp only at hpc
    rcases hpc with rfl | rfl | rfl <;>
      simp [campaign_run, campaign_step, thread_step, hs, app_update_counters, counters]
  · intro hpc
    simp only at hpc
    subst hpc
    by_cases h1 : c.auto tr = true <;> by_cases h2 : c.manual tr = true <;>
      simp [campaign_run, campaign_step, thread_step, hs, h1, h2, classify, app_at_update_same,
        app_update_length, hidx]

set_option maxRecDepth 8000 in
/-- Witness for C4 (amended): the campaign on entry 0 of the initial table,
stopped in the workload of trial 0 (after 10 steps) and at the recovery wait of
trial 0 (after 27 steps). -/
theorem cancellation_in_trial_witness :
    ((campaign_run source_checks never_stop 10 (campaign_start test_apps 0 [])).th.at_pc =
        pc.work_cond ∧
      (campaign_run source_checks (stop_at 0) 4
        (campaign_run source_checks never_stop 10 (campaign_start test_apps 0 []))).mem.apps.map
          counters =
        (campaign_run source_checks never_stop 10
          (campaign_start test_apps 0 [])).mem.apps.map counters) ∧
    ((campaign_run source_checks never_stop 27 (campaign_start test_apps 0 [])).th.at_pc =
        pc.recovery_wait ∧
      (campaign_run source_checks (stop_at 0) 13
        (campaign_run source_checks never_stop 27 (campaign_start test_apps 0 []))).th.at_pc =
        pc.exited) :=
  ⟨⟨by decide,
      ((cancellation_in_trial source_checks (stop_at 0)
        (campaign_run source_checks never_stop 10 (campaign_start test_apps 0 [])).mem
        (campaign_run source_checks never_stop 10 (campaign_start test_apps 0 [])).th
        (by decide) (by decide)).1 (Or.inl (by decide))).2.2⟩,
    ⟨by decide,
      ((cancellation_in_trial source_checks (stop_at 0)
        (campaign_run source_checks never_stop 27 (campaign_start test_apps 0 [])).mem
        (campaign_run source_checks never_stop 27 (campaign_start test_apps 0 [])).th
        (by decide) (by decide)).2 (by decide)).1⟩⟩

/-- C4 (counterexample). A stop request during the recovery wait does not
abandon the trial: in the campaign on entry 0 of the initial table, with the
stop request arriving when the thread is at `msleep(2000)` of trial 0 (slot
27; the flag was clear and `num_trials` was 0 until then), the thread goes on
to record the outcome and only leaves at the next loop test: it returns with
`trial = 1`, `num_trials = 1` and `automatic_recovery = 1`. -/
theorem stop_in_recovery_wait_is_counted :
    (campaign_run source_checks (stop_at 27) 27 (campaign_start test_apps 0 [])).th =
      { should_stop := false, at_pc := pc.recovery_wait, app_idx := 0, i := 10, trial := 0 } ∧
    (app_at (campaign_run source_checks (stop_at 27) 27
      (campaign_start test_apps 0 [])).mem.apps 0).num_trials = 0 ∧
    (campaign_run source_checks (stop_at 27) 37 (campaign_start test_apps 0 [])).th =
      { should_stop := true, at_pc := pc.exited, app_idx := 0, i := 10, trial := 1 } ∧
    (app_at (campaign_run source_checks (stop_at 27) 37
      (campaign_start test_apps 0 [])).mem.apps 0).num_trials = 1 ∧
    (app_at (campaign_run source_checks (stop_at 27) 37
      (campaign_start test_apps 0 [])).mem.apps 0).automatic_recovery = 1 := by
  decide

/-- C5. A stop request during the workload leaves the test record open: in a
campaign on entry 0 with the stop request arriving in the workload loop of
trial 0 (slot 10), the thread leaves through `break` and returns; the only
evaluator call it has made is `start_test("mp3_player_trial_0", "snd")`, with
no `end_test` after it. -/
theorem stop_in_workload_leaves_record_open :
    (campaign_run source_checks (stop_at 10) 13 (campaign_start test_apps 0 [])).th.at_pc =
      pc.exited ∧
    (campaign_run source_checks (stop_at 10) 13 (campaign_start test_apps 0 [])).mem.evaluator =
      [evaluator_call.start_test "mp3_player_trial_0" "snd"] := by
  decide

/-- C6. A failed `kthread_run` leaves the error pointer in `app_thread`: for
`start 0` in the initial state with `kthread_run` failing with `-12`, the
command returns `-12` and the registry is unchanged, but `app_thread` is
`ERR_PTR(-12)` instead of `NULL`, so a following `stop`, and likewise module
exit, calls `kthread_stop` on that error pointer. -/
theorem failed_start_leaves_error_pointer :
    (harness_proc_write source_checks harness_init "start 0".toList 7
      (kthread_run_result.failed (-12))).2 = -12 ∧
    (harness_proc_write source_checks harness_init "start 0".toList 7
      (kthread_run_result.failed (-12))).1.mem.apps = harness_init.mem.apps ∧
    (harness_proc_write source_checks harness_init "start 0".toList 7
      (kthread_run_result.failed (-12))).1.threads = [] ∧
    harness_init.app_thread = task_ptr.null ∧
    (harness_proc_write source_checks harness_init "start 0".toList 7
      (kthread_run_result.failed (-12))).1.app_thread = task_ptr.err (-12) ∧
    (harness_proc_write source_checks
      (harness_proc_write source_checks harness_init "start 0".toList 7
        (kthread_run_result.failed (-12))).1
      "stop".toList 4 kthread_run_result.created).1.kthread_stop_calls = [task_ptr.err (-12)] ∧
    (app_test_harness_exit source_checks
      (harness_proc_write source_checks harness_init "start 0".toList 7
        (kthread_run_result.failed (-12))).1).kthread_stop_calls = [task_ptr.err (-12)] := by
  decide

/-- C7. Natural completion leaves the handle set: after `start 0` and a
campaign that runs to the trial limit without any stop request, the thread
has returned (`trial = 400`, stop flag clear) but `app_thread` still holds its
task, so a following `stop` is not a no-op: it calls `kthread_stop` on the
task of the returned thread and changes `app_thread` to `NULL`. -/
theorem natural_completion_keeps_handle :
    (harness_run source_checks harness_init
      (event.write "start 0".toList 7 kthread_run_result.created ::
        List.replicate CAMPAIGN_STEPS (event.tick 0))).threads.map
          (fun t => (t.at_pc, t.trial, t.should_stop)) = [(pc.exited, 400, false)] ∧
    (harness_run source_checks harness_init
      (event.write "start 0".toList 7 kthread_run_result.created ::
        List.replicate CAMPAIGN_STEPS (event.tick 0))).app_thread = task_ptr.task 0 ∧
    (harness_run source_checks harness_init
      (event.write "start 0".toList 7 kthread_run_result.created ::
        List.replicate CAMPAIGN_STEPS (event.tick 0))).kthread_stop_calls = [] ∧
    (harness_proc_write source_checks
      (harness_run source_checks harness_init
        (event.write "start 0".toList 7 kthread_run_result.created ::
          List.replicate CAMPAIGN_STEPS (event.tick 0)))
      "stop".toList 4 kthread_run_result.created).1.kthread_stop_calls = [task_ptr.task 0] ∧
    (harness_proc_write source_checks
      (harness_run source_checks harness_init
        (event.write "start 0".toList 7 kthread_run_result.created ::
          List.replicate CAMPAIGN_STEPS (event.tick 0)))
      "stop".toList 4 kthread_run_result.created).1.app_thread = task_ptr.null :=
  natural_completion_general CAMPAIGN_STEPS (Nat.le_refl _)

/-- C8 (amended). Out-of-range start is a no-op for a text that is read in
full: for every command text `start <n>`, `<n>` being the decimal text of an
integer `n` in the range of `int` that does not lie in `[0, 6)`, optionally
followed by characters that do not begin with a digit (a newline, say), the
whole text being at most 63 bytes and `count` its length, in any state and
whatever `kthread_run` would do, `harness_proc_write` returns `count` and
leaves the whole state unchanged: no thread is created, no registry entry
and no handle is touched. -/
theorem start_out_of_range_is_noop (c : checks) (s : harness_state) (kr : kthread_run_result)
    (n : Int) (tail : List Char)
    (hint : -2147483648 ≤ n ∧ n ≤ 2147483647) (hn : ¬ (0 ≤ n ∧ n < 6))
    (htail : ∀ ch, tail.head? = some ch → isdigit ch = false)
    (hfit : ("start ".toList ++ decimal_text n ++ tail).length ≤ 63) :
    harness_proc_write c s ("start ".toList ++ decimal_text n ++ tail)
        ("start ".toList ++ decimal_text n ++ tail).length kr =
      (s, (("start ".toList ++ decimal_text n ++ tail).length : Int)) := by
  have hw : int_wrap n = n := by
    simp only [int_wrap]
    omega
  refine write_start_ignored c s _ _ kr n (by omega) ?_ hn
  rw [c_string_command n tail hfit,
    sscanf_decimal_text n _ (takeWhile_head_not_digit tail htail), hw]

/-- Witness for C8 (amended): the texts `start 99` followed by a newline and
`start -1`, in the initial state. -/
theorem start_out_of_range_is_noop_witness :
    harness_proc_write source_checks harness_init "start 99\n".toList 9
      kthread_run_result.created = (harness_init, 9) ∧
    "start ".toList ++ decimal_text (-1) ++ [] = "start -1".toList ∧
    harness_proc_write source_checks harness_init ("start ".toList ++ decimal_text (-1) ++ [])
      ("start ".toList ++ decimal_text (-1) ++ []).length kthread_run_result.created =
      (harness_init, (("start ".toList ++ decimal_text (-1) ++ []).length : Int)) :=
  ⟨start_out_of_range_is_noop source_checks harness_init kthread_run_result.created 99 ['\n']
      (by decide) (by decide)
      (by intro ch h; simp only [List.head?_cons, Option.some.injEq] at h; subst h; decide)
      (by decide),
   by decide,
   start_out_of_range_is_noop source_checks harness_init kthread_run_result.created (-1) []
      (by decide) (by decide) (by intro ch h; simp at h) (by decide)⟩

/-- C8 (counterexample). Two texts `start <n>` with `n` outside `[0, 6)` that
start a campaign. The 64-byte text `start 0...059` (56 zeros, then `59`) is
cut to its first 63 bytes (`min(count, sizeof(cmd) - 1)`) and read as 5: a
thread is created for entry 5 and `count = 64` is returned. The text
`start 4294967296` is stored in the `int app_idx` as 0: a thread is created
for entry 0. -/
theorem long_or_large_start_is_accepted :
    harness_proc_write source_checks harness_init
      ("start ".toList ++ List.replicate 56 '0' ++ ['5', '9']) 64 kthread_run_result.created =
      ({ harness_init with
          mem := { harness_init.mem with current_app := 5 },
          app_thread := task_ptr.task 0, threads := [kthread_new] }, 64) ∧
    harness_proc_write source_checks harness_init "start 4294967296".toList 16
      kthread_run_result.created =
      ({ harness_init with app_thread := task_ptr.task 0, threads := [kthread_new] }, 16) := by
  decide

/-- C9. Reset: whenever the copy from user space succeeds and the command
text begins with `reset`, in any state (a campaign running or not),
`harness_proc_write` returns `count`; afterwards the four counters of every
entry are 0, the number of entries and the `name`, `driver_class` and
`is_running` of every entry are unchanged, and so are `app_thread`, the
threads (none is stopped), `current_app` and the traces; a second reset
gives the same state again. -/
theorem reset_command (c : checks) (s : harness_state) (buffer : List Char) (count : Nat)
    (kr : kthread_run_result) (hcopy : min count 63 ≤ buffer.length)
    (hcmd : (c_string buffer (min count 63)).take 5 = "reset".toList) :
    (harness_proc_write c s buffer count kr).2 = (count : Int) ∧
    (harness_proc_write c s buffer count kr).1.mem.apps.length = s.mem.apps.length ∧
    (∀ a ∈ (harness_proc_write c s buffer count kr).1.mem.apps,
      a.num_trials = 0 ∧ a.automatic_recovery = 0 ∧ a.manual_recovery = 0 ∧
      a.failed_recovery = 0) ∧
    (harness_proc_write c s buffer count kr).1.mem.apps.map
        (fun a => (a.name, a.driver_class, a.is_running)) =
      s.mem.apps.map (fun a => (a.name, a.driver_class, a.is_running)) ∧
    (harness_proc_write c s buffer count kr).1.app_thread = s.app_thread ∧
    (harness_proc_write c s buffer count kr).1.threads = s.threads ∧
    (harness_proc_write c s buffer count kr).1.kthread_stop_calls = s.kthread_stop_calls ∧
    (harness_proc_write c s buffer count kr).1.mem.current_app = s.mem.current_app ∧
    (harness_proc_write c s buffer count kr).1.mem.evaluator = s.mem.evaluator ∧
    (harness_proc_write c s buffer count kr).1.printk = s.printk ∧
    harness_proc_write c (harness_proc_write c s buffer count kr).1 buffer count kr =
      harness_proc_write c s buffer count kr := by
  rw [write_reset c s buffer count kr hcopy hcmd, write_reset c _ buffer count kr hcopy hcmd]
  refine ⟨rfl, by simp, ?_, ?_, rfl, rfl, rfl, rfl, rfl, rfl, ?_⟩
  · intro a ha
    simp only [List.mem_map] at ha
    obtain ⟨b, _, rfl⟩ := ha
    exact ⟨rfl, rfl, rfl, rfl⟩
  · simp [List.map_map, Function.comp_def, zeroed]
  · simp [List.map_map, Function.comp_def, zeroed]

/-- Witness for C9: `reset` while the campaign on entry 0 is running with one
trial counted. -/
theorem reset_command_witness :
    (app_at (harness_run source_checks harness_init
      (write_cmd "start 0" kthread_run_result.created ::
        List.replicate 40 (event.tick 0))).mem.apps 0).num_trials = 1 ∧
    (app_at (harness_run source_checks harness_init
      (write_cmd "start 0" kthread_run_result.created ::
        List.replicate 40 (event.tick 0))).mem.apps 0).is_running = true ∧
    (∀ a ∈ (harness_proc_write source_checks
        (harness_run source_checks harness_init
          (write_cmd "start 0" kthread_run_result.created :: List.replicate 40 (event.tick 0)))
        "reset".toList 5 kthread_run_result.created).1.mem.apps,
      a.num_trials = 0 ∧ a.automatic_recovery = 0 ∧ a.manual_recovery = 0 ∧
      a.failed_recovery = 0) ∧
    (harness_proc_write source_checks
        (harness_run source_checks harness_init
          (write_cmd "start 0" kthread_run_result.created :: List.replicate 40 (event.tick 0)))
        "reset".toList 5 kthread_run_result.created).1.threads =
      (harness_run source_checks harness_init
        (write_cmd "start 0" kthread_run_result.created ::
          List.replicate 40 (event.tick 0))).threads :=
  ⟨by decide, by decide,
    (reset_command source_checks _ "reset".toList 5 kthread_run_result.created
      (by decide) (by decide)).2.2.1,
    (reset_command source_checks _ "reset".toList 5 kthread_run_result.created
      (by decide) (by decide)).2.2.2.2.2.1⟩

/-- C10. Campaign termination and trial limit: for every entry of the registry
and every cancellation schedule, after at most `CAMPAIGN_STEPS` steps the
thread has returned, it has completed at most 400 trials (`trial ≤ 400`,
with `num_trials` incremented once per completed trial), and `is_running` of
its entry is false. If no stop is ever requested it has completed exactly
400 trials: `num_trials` has been incremented 400 times (it is the old value
plus 400, reduced to the range of `int`, hence exactly 400 more when that
does not overflow), and the `start_test` labels it issued are
`<name>_trial_0 .. <name>_trial_399` in order, pairwise distinct (the name
fits `char name[64]`). -/
theorem campaign_terminates (c : checks) (sched : Nat → Bool) (apps : List app_definition)
    (idx : Nat) (ev : List evaluator_call) (n : Nat) (hidx : idx < apps.length)
    (hname : (app_at apps idx).name.length ≤ 63) (hn : CAMPAIGN_STEPS ≤ n) :
    ((campaign_run c sched n (campaign_start apps idx ev)).th.at_pc = pc.exited ∧
      (campaign_run c sched n (campaign_start apps idx ev)).th.trial ≤ 400 ∧
      (app_at (campaign_run c sched n (campaign_start apps idx ev)).mem.apps idx).num_trials =
        (int_incr^[(campaign_run c sched n (campaign_start apps idx ev)).th.trial])
          (app_at apps idx).num_trials ∧
      (app_at (campaign_run c sched n (campaign_start apps idx ev)).mem.apps idx).is_running =
        false) ∧
    ((∀ k, sched k = false) →
      (campaign_run c sched n (campaign_start apps idx ev)).th.trial = 400 ∧
      (app_at (campaign_run c sched n (campaign_start apps idx ev)).mem.apps idx).num_trials =
        int_wrap ((app_at apps idx).num_trials + 400) ∧
      (-2147483648 ≤ (app_at apps idx).num_trials →
        (app_at apps idx).num_trials + 400 ≤ 2147483647 →
        (app_at (campaign_run c sched n (campaign_start apps idx ev)).mem.apps idx).num_trials =
          (app_at apps idx).num_trials + 400) ∧
      start_labels (campaign_run c sched n (campaign_start apps idx ev)).mem.evaluator =
        start_labels ev ++ (List.range 400).map (test_name (app_at apps idx).name) ∧
      ((List.range 400).map (test_name (app_at apps idx).name)).Nodup) := by
  have hc := campaign_run_control c sched apps idx ev hidx n
  have hk := campaign_run_counters c sched apps idx ev hidx n
  have hx := campaign_run_exit c sched apps idx ev hidx n
  have he := campaign_run_exited c sched apps idx ev n hn
  have hu := fun hs => campaign_run_unstopped c sched apps idx ev hidx hs n
  have hl := fun hs => campaign_run_labels c sched apps idx ev hidx hs n
  generalize campaign_run c sched n (campaign_start apps idx ev) = s at hc hk hx he hu hl ⊢
  obtain ⟨_, _, _, _, hle, _⟩ := hc
  obtain ⟨k1, _⟩ := hk
  simp only [he, trial_counted, Bool.false_eq_true, if_false, Nat.add_zero] at k1
  refine ⟨⟨he, hle, k1, hx he⟩, fun hs => ?_⟩
  have h400 : s.th.trial = 400 := (hu hs).2 (Or.inr he)
  have hw : (app_at s.mem.apps idx).num_trials = int_wrap ((app_at apps idx).num_trials + 400) := by
    rw [k1, h400, int_incr_iterate_wrap 399]
    norm_num
  obtain ⟨_, hlab⟩ := hl hs
  simp only [he, label_logged, in_trial, Bool.false_eq_true, if_false, Nat.add_zero, h400] at hlab
  refine ⟨h400, hw, ?_, hlab, test_names_nodup _ hname⟩
  intro hlo hhi
  rw [hw]
  simp only [int_wrap]
  omega

/-- Witness for C10: the campaign on entry 0 of the initial table, never asked
to stop. -/
theorem campaign_terminates_witness :
    (0 < test_apps.length ∧ (app_at test_apps 0).name.length ≤ 63) ∧
    (campaign_run source_checks never_stop CAMPAIGN_STEPS
      (campaign_start test_apps 0 [])).th.at_pc = pc.exited ∧
    (campaign_run source_checks never_stop CAMPAIGN_STEPS
      (campaign_start test_apps 0 [])).th.trial = 400 ∧
    (app_at (campaign_run source_checks never_stop CAMPAIGN_STEPS
      (campaign_start test_apps 0 [])).mem.apps 0).num_trials =
      (app_at test_apps 0).num_trials + 400 :=
  ⟨by decide,
    (campaign_terminates source_checks never_stop test_apps 0 [] CAMPAIGN_STEPS (by decide)
      (by decide) (Nat.le_refl _)).1.1,
    ((campaign_terminates source_checks never_stop test_apps 0 [] CAMPAIGN_STEPS (by decide)
      (by decide) (Nat.le_refl _)).2 (fun _ => rfl)).1,
    ((campaign_terminates source_checks never_stop test_apps 0 [] CAMPAIGN_STEPS (by decide)
      (by decide) (Nat.le_refl _)).2 (fun _ => rfl)).2.2.1 (by decide) (by decide)⟩

end AppTestHarness
